import Mathlib

/-!
bazel2zephyr, Step2: the loop of `main`.

Shallow embedding of `src/Step2/src/main.cpp`:

```
void main(void) {
	while(1) {
		CalculationMachine machine = CalculationMachine();
		printk("Sum of 5 and 3 = %d\n", machine.sum(5, 3));
		k_sleep(K_MSEC(1000));
	}
}
```

`main` is a small-step machine over a program counter and the one local
variable; every step returns the effects it emits (console text, sleep
requests).  The width `w` of the C++ type `int` is a parameter of the whole
development; the language guarantees `16 ≤ w`.
-/

namespace Bazel2Zephyr

/-! ## The type `int` -/

/-- Least value of a `w`-bit signed `int`. -/
def intMin (w : Nat) : Int := -(2 : Int) ^ (w - 1)

/-- Greatest value of a `w`-bit signed `int`. -/
def intMax (w : Nat) : Int := (2 : Int) ^ (w - 1) - 1

/-- The mathematical integer `x` is a value of a `w`-bit signed `int`. -/
def fitsInt (w : Nat) (x : Int) : Bool := decide (intMin w ≤ x) && decide (x ≤ intMax w)

/-- Two's complement reduction of a mathematical integer to a `w`-bit signed `int`. -/
def wrapInt (w : Nat) (x : Int) : Int :=
  (x + (2 : Int) ^ (w - 1)) % (2 : Int) ^ w - (2 : Int) ^ (w - 1)

/-- The `int` addition `a + b` leaves the range of `int` (undefined behaviour in C++). -/
def addOverflows (w : Nat) (a b : Int) : Bool := !fitsInt w (a + b)

/-! ## `calculationMachine.hh` -/

/-- Modelled from the spec: the class `CalculationMachine` of `calculationMachine.hh`,
which `main.cpp` includes and which is not among the sources.  The spec gives it no
"state beyond a transient local instance": an object without fields. -/
structure CalculationMachine where
  deriving DecidableEq

/-- Modelled from the spec: the method `CalculationMachine::sum` of the missing
`calculationMachine.hh`, "a single addition operation" on two `int` operands with no
"error conditions": the sum of the operands as a `w`-bit signed `int`. -/
def CalculationMachine.sum (w : Nat) (_machine : CalculationMachine) (a b : Int) : Int :=
  wrapInt w (a + b)

/-! ## The platform: `printk` and `k_sleep` -/

/-- An effect of the program that is observable from outside. -/
inductive Effect where
  /-- Text handed to the console by one call of `printk`. -/
  | print (text : String)
  /-- One call of `k_sleep` with a timeout of `ms` milliseconds. -/
  | sleep (ms : Nat)
  deriving DecidableEq

/-- The `%d` conversion: an `int` in decimal, with a minus sign when negative. -/
def renderInt (v : Int) : List Char :=
  if v < 0 then '-' :: Nat.toDigits 10 v.natAbs else Nat.toDigits 10 v.natAbs

/-- The text `printk` produces from the rest of a format and the `int` arguments not
yet consumed; the flag says that the character just read was a `%` that opens a
conversion.  `%d` consumes the next argument, `%%` is a percent sign, every other
character is copied. -/
def formatChars : Bool → List Char → List Int → List Char
  | false, [], _ => []
  | true, [], _ => ['%']
  | false, c :: rest, args =>
    if c = '%' then formatChars true rest args else c :: formatChars false rest args
  | true, c :: rest, args =>
    if c = 'd' then
      match args with
      | a :: args2 => renderInt a ++ formatChars false rest args2
      | [] => formatChars false rest []
    else if c = '%' then '%' :: formatChars false rest args
    else '%' :: c :: formatChars false rest args

/-- The call `printk(fmt, args...)`: the text it writes. -/
def printk (fmt : String) (args : List Int) : String :=
  String.mk (formatChars false fmt.data args)

/-- The timeout `K_MSEC(ms)`, in milliseconds. -/
def K_MSEC (ms : Nat) : Nat := ms

/-! ## `main` -/

/-- Program points of `main`. -/
inductive Pc where
  /-- Line 6, `while(1)`: the loop condition is about to be tested. -/
  | loopTest
  /-- Line 7: `machine` is about to be constructed. -/
  | construct
  /-- Line 8: `printk` is about to be called. -/
  | print
  /-- Line 9: `k_sleep` is about to be called. -/
  | sleep
  /-- Line 11: the loop was left and `main` has returned. -/
  | returned
  /-- An `int` operation overflowed: the behaviour is undefined. -/
  | undefined
  deriving DecidableEq

/-- The state of `main`: the program point and the local variable `machine`, which
exists only between its declaration and the end of the loop body. -/
structure Prog where
  pc : Pc
  machine : Option CalculationMachine
  deriving DecidableEq

/-- The state in which `main` is entered. -/
def mainEntry : Prog := { pc := Pc.loopTest, machine := none }

/-- The line `main` prints for the value `v` of `machine.sum(5, 3)`. -/
def sumLine (v : Int) : String := printk "Sum of 5 and 3 = %d\n" [v]

/-- One statement of `main`: the next state and the effects emitted. -/
def step (w : Nat) (s : Prog) : Prog × List Effect :=
  match s.pc with
  | Pc.loopTest =>
    if (1 : Int) ≠ 0 then ({ pc := Pc.construct, machine := none }, [])
    else ({ pc := Pc.returned, machine := none }, [])
  | Pc.construct => ({ pc := Pc.print, machine := some CalculationMachine.mk }, [])
  | Pc.print =>
    match s.machine with
    | some m =>
      if addOverflows w 5 3 then ({ pc := Pc.undefined, machine := some m }, [])
      else ({ pc := Pc.sleep, machine := some m }, [Effect.print (sumLine (m.sum w 5 3))])
    | none => ({ pc := Pc.undefined, machine := none }, [])
  | Pc.sleep => ({ pc := Pc.loopTest, machine := none }, [Effect.sleep (K_MSEC 1000)])
  | Pc.returned => (s, [])
  | Pc.undefined => (s, [])

/-- Run `k` statements from `s`: the state reached and the effects, oldest first. -/
def exec (w : Nat) : Nat → Prog → Prog × List Effect
  | 0, s => (s, [])
  | k + 1, s => ((exec w k (step w s).1).1, (step w s).2 ++ (exec w k (step w s).1).2)

/-- Number of statements in one pass of the loop: test, construction, `printk`, `k_sleep`. -/
def stepsPerIteration : Nat := 4

/-- The state of `main` at the start of iteration `n` (counted from 1). -/
def iterationStart (w n : Nat) : Prog := (exec w (stepsPerIteration * (n - 1)) mainEntry).1

/-- The effects of iteration `n` (counted from 1) of the loop. -/
def iterationEffects (w n : Nat) : List Effect :=
  (exec w stepsPerIteration (iterationStart w n)).2

/-- The effects of the first `n` complete iterations of the loop. -/
def effectsOfIterations (w n : Nat) : List Effect :=
  (exec w (stepsPerIteration * n) mainEntry).2

/-- The console text of a sequence of effects. -/
def consoleText : List Effect → String
  | [] => ""
  | Effect.print t :: rest => t ++ consoleText rest
  | Effect.sleep _ :: rest => consoleText rest

/-- The lines printed in a sequence of effects, oldest first. -/
def printedLines : List Effect → List String
  | [] => []
  | Effect.print t :: rest => t :: printedLines rest
  | Effect.sleep _ :: rest => printedLines rest

/-! ## Lemmas on `int` -/

/-- A power of two with a positive exponent is twice the power below it. -/
theorem two_pow_split (w : Nat) (hw : 1 ≤ w) : (2 : Int) ^ w = 2 * (2 : Int) ^ (w - 1) := by
  obtain ⟨v, rfl⟩ : ∃ v, w = v + 1 := ⟨w - 1, by omega⟩
  simp [pow_succ, mul_comm]

/-- With at least 16 bits, half the range of `int` is at least `2 ^ 15`. -/
theorem two_pow_pred_ge (w : Nat) (hw : 16 ≤ w) : (32768 : Int) ≤ (2 : Int) ^ (w - 1) := by
  have h : (2 : Int) ^ 15 ≤ (2 : Int) ^ (w - 1) :=
    pow_le_pow_right₀ (by norm_num) (by omega)
  norm_num at h
  exact h

/-- Two's complement reduction leaves a value of `int` unchanged. -/
theorem wrapInt_eq_of_fits (w : Nat) (x : Int) (hw : 1 ≤ w) (h : fitsInt w x = true) :
    wrapInt w x = x := by
  simp only [fitsInt, intMin, intMax, Bool.and_eq_true, decide_eq_true_eq] at h
  unfold wrapInt
  rw [two_pow_split w hw]
  have h1 : 0 ≤ x + (2 : Int) ^ (w - 1) := by linarith [h.1]
  have h2 : x + (2 : Int) ^ (w - 1) < 2 * (2 : Int) ^ (w - 1) := by linarith [h.2]
  rw [Int.emod_eq_of_lt h1 h2]
  ring

/-- The value 8 is an `int` as soon as `int` has 16 bits. -/
theorem fitsInt_eight (w : Nat) (hw : 16 ≤ w) : fitsInt w 8 = true := by
  have h := two_pow_pred_ge w hw
  simp only [fitsInt, intMin, intMax, Bool.and_eq_true, decide_eq_true_eq]
  constructor <;> linarith

/-- The addition `5 + 3` does not overflow an `int` of at least 16 bits. -/
theorem addOverflows_five_three (w : Nat) (hw : 16 ≤ w) : addOverflows w 5 3 = false := by
  have h := fitsInt_eight w hw
  simp only [addOverflows]
  norm_num
  exact h

/-- The value of `machine.sum(5, 3)` is 8 for an `int` of at least 16 bits. -/
theorem sum_five_three (w : Nat) (hw : 16 ≤ w) (m : CalculationMachine) :
    m.sum w 5 3 = 8 := by
  have h := wrapInt_eq_of_fits w 8 (by omega) (fitsInt_eight w hw)
  simp only [CalculationMachine.sum]
  norm_num
  exact h

/-- The line printed for the value 8. -/
theorem sumLine_eight : sumLine 8 = "Sum of 5 and 3 = 8\n" := by decide

/-! ## Lemmas on the execution of `main` -/

/-- Running `a + b` statements is running `a`, then `b` from the state reached. -/
theorem exec_add (w a b : Nat) (s : Prog) :
    exec w (a + b) s
      = ((exec w b (exec w a s).1).1, (exec w a s).2 ++ (exec w b (exec w a s).1).2) := by
  induction a generalizing s with
  | zero => simp [exec]
  | succ a ih =>
    rw [Nat.succ_add]
    simp only [exec, ih, List.append_assoc]

/-- One pass of the loop from the entry state: back at the loop test, one line printed,
one sleep requested. -/
theorem exec_iteration (w : Nat) (hw : 16 ≤ w) :
    exec w stepsPerIteration mainEntry
      = (mainEntry, [Effect.print "Sum of 5 and 3 = 8\n", Effect.sleep 1000]) := by
  simp [stepsPerIteration, exec, step, mainEntry, addOverflows_five_three w hw,
    sum_five_three w hw, sumLine_eight, K_MSEC]

/-- The first `n` passes of the loop. -/
theorem exec_iterations (w : Nat) (hw : 16 ≤ w) (n : Nat) :
    exec w (stepsPerIteration * n) mainEntry
      = (mainEntry,
          (List.replicate n [Effect.print "Sum of 5 and 3 = 8\n", Effect.sleep 1000]).flatten) := by
  induction n with
  | zero => simp [exec]
  | succ n ih =>
    rw [Nat.mul_succ, exec_add, ih, exec_iteration w hw]
    simp [List.replicate_succ', List.flatten_append]

/-- No statement of `main` leads to the returned state from another state. -/
theorem step_pc_ne_returned (w : Nat) (s : Prog) (h : s.pc ≠ Pc.returned) :
    (step w s).1.pc ≠ Pc.returned := by
  obtain ⟨pc, machine⟩ := s
  cases pc <;> cases machine <;> simp [step] at h ⊢
  split <;> simp

/-- From a state that has not returned, `main` never returns. -/
theorem exec_pc_ne_returned (w k : Nat) (s : Prog) (h : s.pc ≠ Pc.returned) :
    (exec w k s).1.pc ≠ Pc.returned := by
  induction k generalizing s with
  | zero => simpa [exec] using h
  | succ k ih => simpa [exec] using ih (step w s).1 (step_pc_ne_returned w s h)

/-- Within the first pass of the loop the behaviour stays defined. -/
theorem exec_lt_iteration_pc (w r : Nat) (hw : 16 ≤ w) (hr : r < stepsPerIteration) :
    (exec w r mainEntry).1.pc ≠ Pc.undefined := by
  unfold stepsPerIteration at hr
  interval_cases r <;>
    simp [exec, step, mainEntry, addOverflows_five_three w hw]

/-- The behaviour of `main` stays defined for an `int` of at least 16 bits. -/
theorem exec_pc_ne_undefined (w k : Nat) (hw : 16 ≤ w) :
    (exec w k mainEntry).1.pc ≠ Pc.undefined := by
  have hk : k = stepsPerIteration * (k / stepsPerIteration) + k % stepsPerIteration :=
    (Nat.div_add_mod k stepsPerIteration).symm
  rw [hk, exec_add, exec_iterations w hw]
  exact exec_lt_iteration_pc w _ hw (Nat.mod_lt _ (by decide))

/-- The printed lines of a concatenation. -/
theorem printedLines_append (xs ys : List Effect) :
    printedLines (xs ++ ys) = printedLines xs ++ printedLines ys := by
  induction xs with
  | nil => simp [printedLines]
  | cons x xs ih => cases x <;> simp [printedLines, ih]

/-- The printed lines of `n` passes of the loop. -/
theorem printedLines_iterations (n : Nat) :
    printedLines
        (List.replicate n [Effect.print "Sum of 5 and 3 = 8\n", Effect.sleep 1000]).flatten
      = List.replicate n "Sum of 5 and 3 = 8\n" := by
  induction n with
  | zero => simp [printedLines]
  | succ n ih => simp [List.replicate_succ, printedLines, ih]

/-- Every iteration starts in the entry state. -/
theorem iterationStart_eq (w n : Nat) (hw : 16 ≤ w) : iterationStart w n = mainEntry := by
  simp [iterationStart, exec_iterations w hw]

/-- Every iteration emits the line, then the sleep request. -/
theorem iterationEffects_eq (w n : Nat) (hw : 16 ≤ w) :
    iterationEffects w n = [Effect.print "Sum of 5 and 3 = 8\n", Effect.sleep 1000] := by
  simp [iterationEffects, iterationStart_eq w n hw, exec_iteration w hw]

/-! ## The claims -/

/-- C1: in every iteration `n ≥ 1` of the loop of `main` the text written to the console
is exactly the line "Sum of 5 and 3 = 8" with its newline: the one line printed is the
line for the value of `machine.sum(5, 3)`, that value is the sum `5 + 3 = 8`, and `%d`
renders 8 as the decimal string "8". -/
theorem main_iteration_prints_sum_line (w n : Nat) (hw : 16 ≤ w) (_hn : 1 ≤ n) :
    consoleText (iterationEffects w n) = "Sum of 5 and 3 = 8\n"
      ∧ printedLines (iterationEffects w n)
          = [sumLine (CalculationMachine.sum w CalculationMachine.mk 5 3)]
      ∧ CalculationMachine.sum w CalculationMachine.mk 5 3 = 5 + 3
      ∧ CalculationMachine.sum w CalculationMachine.mk 5 3 = 8
      ∧ String.mk (renderInt 8) = "8" := by
  have hs := sum_five_three w hw CalculationMachine.mk
  refine ⟨?_, ?_, ?_, hs, by decide⟩
  · rw [iterationEffects_eq w n hw]; decide
  · rw [iterationEffects_eq w n hw, hs, sumLine_eight]; simp [printedLines]
  · rw [hs]; norm_num

/-- Concrete instance: 32-bit `int`, third iteration. -/
theorem main_iteration_prints_sum_line_witness :
    (16 ≤ 32 ∧ 1 ≤ 3) ∧
      (consoleText (iterationEffects 32 3) = "Sum of 5 and 3 = 8\n"
        ∧ printedLines (iterationEffects 32 3)
            = [sumLine (CalculationMachine.sum 32 CalculationMachine.mk 5 3)]
        ∧ CalculationMachine.sum 32 CalculationMachine.mk 5 3 = 5 + 3
        ∧ CalculationMachine.sum 32 CalculationMachine.mk 5 3 = 8
        ∧ String.mk (renderInt 8) = "8") :=
  ⟨by decide, main_iteration_prints_sum_line 32 3 (by decide) (by decide)⟩

/-- C2: the effects of the first `n` complete iterations of the loop of `main` are
exactly `n` repetitions of the pair: one printed line, then one sleep request of
1000 ms; nothing else is emitted, and after them `main` is back at the loop test. -/
theorem main_effects_are_print_sleep_pairs (w n : Nat) (hw : 16 ≤ w) :
    effectsOfIterations w n
        = (List.replicate n
            [Effect.print "Sum of 5 and 3 = 8\n", Effect.sleep 1000]).flatten
      ∧ (exec w (stepsPerIteration * n) mainEntry).1 = mainEntry := by
  simp [effectsOfIterations, exec_iterations w hw]

/-- Concrete instance: 16-bit `int`, two iterations. -/
theorem main_effects_are_print_sleep_pairs_witness :
    16 ≤ 16 ∧
      (effectsOfIterations 16 2
          = (List.replicate 2
              [Effect.print "Sum of 5 and 3 = 8\n", Effect.sleep 1000]).flatten
        ∧ (exec 16 (stepsPerIteration * 2) mainEntry).1 = mainEntry) :=
  ⟨by decide, main_effects_are_print_sleep_pairs 16 2 (by decide)⟩

/-- C3: `main` emits its line indefinitely.  The loop has no exit: no number `k` of
statements brings `main` to the state in which it has returned, nor to the state of
undefined behaviour.  And for every `n ≥ 1`
the execution reaches an `n`-th iteration (it stands at the loop test, which sends it
into the body) and, three statements later, has printed exactly `n` lines, the `n`-th
among them. -/
theorem main_never_returns_and_prints_every_line (w n k : Nat) (hw : 16 ≤ w) (_hn : 1 ≤ n) :
    (exec w k mainEntry).1.pc ≠ Pc.returned
      ∧ (exec w k mainEntry).1.pc ≠ Pc.undefined
      ∧ (iterationStart w n).pc = Pc.loopTest
      ∧ (exec w 1 (iterationStart w n)).1.pc = Pc.construct
      ∧ printedLines (exec w (stepsPerIteration * (n - 1) + 3) mainEntry).2
          = List.replicate n "Sum of 5 and 3 = 8\n" := by
  refine ⟨exec_pc_ne_returned w k mainEntry (by decide), exec_pc_ne_undefined w k hw,
    ?_, ?_, ?_⟩
  · rw [iterationStart_eq w n hw]; rfl
  · rw [iterationStart_eq w n hw]; rfl
  · obtain ⟨v, rfl⟩ : ∃ v, n = v + 1 := ⟨n - 1, by omega⟩
    rw [exec_add, exec_iterations w hw, printedLines_append, printedLines_iterations]
    simp [exec, step, mainEntry, addOverflows_five_three w hw, sum_five_three w hw,
      sumLine_eight, printedLines, List.replicate_succ']

/-- Concrete instance: 32-bit `int`, third iteration, nine statements. -/
theorem main_never_returns_and_prints_every_line_witness :
    (16 ≤ 32 ∧ 1 ≤ 3) ∧
      ((exec 32 9 mainEntry).1.pc ≠ Pc.returned
        ∧ (exec 32 9 mainEntry).1.pc ≠ Pc.undefined
        ∧ (iterationStart 32 3).pc = Pc.loopTest
        ∧ (exec 32 1 (iterationStart 32 3)).1.pc = Pc.construct
        ∧ printedLines (exec 32 (stepsPerIteration * (3 - 1) + 3) mainEntry).2
            = List.replicate 3 "Sum of 5 and 3 = 8\n") :=
  ⟨by decide, main_never_returns_and_prints_every_line 32 3 9 (by decide) (by decide)⟩

/-- C4: the addition of an iteration cannot fail.  For every width `w ≥ 16` of `int`,
so for 16 and for 32 bits, `5 + 3` lies within the range of `int`, the addition does
not overflow, the `int` sum equals the mathematical sum `5 + 3 = 8` with no
wrap-around, and no number `k` of statements brings `main` to the state of undefined
behaviour. -/
theorem sum_of_five_and_three_cannot_fail (w k : Nat) (hw : 16 ≤ w) :
    intMin w ≤ 5 + 3
      ∧ 5 + 3 ≤ intMax w
      ∧ addOverflows w 5 3 = false
      ∧ wrapInt w (5 + 3) = 5 + 3
      ∧ CalculationMachine.sum w CalculationMachine.mk 5 3 = 8
      ∧ (exec w k mainEntry).1.pc ≠ Pc.undefined := by
  have hf := fitsInt_eight w hw
  have hf2 := hf
  simp only [fitsInt, Bool.and_eq_true, decide_eq_true_eq] at hf2
  refine ⟨by simpa using hf2.1, by simpa using hf2.2, addOverflows_five_three w hw, ?_,
    sum_five_three w hw CalculationMachine.mk, exec_pc_ne_undefined w k hw⟩
  have h := wrapInt_eq_of_fits w 8 (by omega) hf
  norm_num
  exact h

/-- Concrete instance: 16-bit and 32-bit `int`, eleven statements. -/
theorem sum_of_five_and_three_cannot_fail_witness :
    (16 ≤ 16 ∧ 16 ≤ 32) ∧
      (intMin 16 ≤ 5 + 3
        ∧ 5 + 3 ≤ intMax 16
        ∧ addOverflows 16 5 3 = false
        ∧ wrapInt 16 (5 + 3) = 5 + 3
        ∧ CalculationMachine.sum 16 CalculationMachine.mk 5 3 = 8
        ∧ (exec 16 11 mainEntry).1.pc ≠ Pc.undefined) ∧
      (intMin 32 ≤ 5 + 3
        ∧ 5 + 3 ≤ intMax 32
        ∧ addOverflows 32 5 3 = false
        ∧ wrapInt 32 (5 + 3) = 5 + 3
        ∧ CalculationMachine.sum 32 CalculationMachine.mk 5 3 = 8
        ∧ (exec 32 11 mainEntry).1.pc ≠ Pc.undefined) :=
  ⟨by decide, sum_of_five_and_three_cannot_fail 16 11 (by decide),
    sum_of_five_and_three_cannot_fail 32 11 (by decide)⟩

/-- C5: no state carries from one iteration of the loop of `main` to the next.  The
state at the start of iteration `n + 1` is the state at the start of iteration 1, with
no `machine` alive; the first two statements of the iteration construct a fresh
`CalculationMachine`; whatever `machine` held before (`m0`), the iteration ends in the
same state with the same effects; and the effects of iteration `n + 1` are those of
iteration 1. -/
theorem main_iterations_carry_no_state (w n : Nat) (m0 : Option CalculationMachine)
    (hw : 16 ≤ w) :
    iterationStart w (n + 1) = iterationStart w 1
      ∧ (iterationStart w (n + 1)).machine = none
      ∧ (exec w 2 (iterationStart w (n + 1))).1
          = { pc := Pc.print, machine := some CalculationMachine.mk }
      ∧ exec w stepsPerIteration { pc := Pc.loopTest, machine := m0 }
          = exec w stepsPerIteration mainEntry
      ∧ iterationEffects w (n + 1) = iterationEffects w 1 := by
  refine ⟨?_, ?_, ?_, ?_, ?_⟩
  · rw [iterationStart_eq w _ hw, iterationStart_eq w _ hw]
  · rw [iterationStart_eq w _ hw]; rfl
  · rw [iterationStart_eq w _ hw]; rfl
  · simp [stepsPerIteration, exec, step, mainEntry]
  · rw [iterationEffects_eq w _ hw, iterationEffects_eq w _ hw]

/-- Concrete instance: 32-bit `int`, fifth iteration, a `machine` left over. -/
theorem main_iterations_carry_no_state_witness :
    16 ≤ 32 ∧
      (iterationStart 32 (4 + 1) = iterationStart 32 1
        ∧ (iterationStart 32 (4 + 1)).machine = none
        ∧ (exec 32 2 (iterationStart 32 (4 + 1))).1
            = { pc := Pc.print, machine := some CalculationMachine.mk }
        ∧ exec 32 stepsPerIteration { pc := Pc.loopTest, machine := some CalculationMachine.mk }
            = exec 32 stepsPerIteration mainEntry
        ∧ iterationEffects 32 (4 + 1) = iterationEffects 32 1) :=
  ⟨by decide,
    main_iterations_carry_no_state 32 4 (some CalculationMachine.mk) (by decide)⟩

end Bazel2Zephyr
